import Mathlib

/-!
Shallow embedding of the HOA Reserve Planning core (Trickfest/HOAReservePlanning).

Conventions of the embedding:
* Python `float` values are modelled as `ℚ` (exact arithmetic); Python `int` as `ℤ`.
* Python's float `**` appears with a possibly fractional exponent
  (`spend_inflation_offset ∈ {0, 0.5, 1}`), so it is embedded as an
  uninterpreted binary operation `pw : ℚ → ℚ → ℚ` threaded through the
  definitions; every theorem below holds for an arbitrary interpretation.
* Python dicts keyed by year are modelled as functions `ℤ → Option ℚ`;
  `dict.get(k, 0.0)` becomes `(m k).getD 0`.
* Fallible code (`raise ValueError`) is modelled with `Except`.
-/

namespace HOAReserve

/-- Python `str.strip()`, modelled on the character list (whitespace removed
from both ends). -/
def pyStrip (s : String) : String :=
  ⟨(((s.data.dropWhile Char.isWhitespace).reverse).dropWhile Char.isWhitespace).reverse⟩

/-- Python `str.upper()` (the flags validated here are ASCII). -/
def pyUpper (s : String) : String := ⟨s.data.map Char.toUpper⟩

/-- Python `str.lower()` (the enum values parsed here are ASCII). -/
def pyLower (s : String) : String := ⟨s.data.map Char.toLower⟩

/-- `reserve/model.py` dataclass `Inputs` (the `features` mapping is omitted:
only fields used by the computations under verification are kept). -/
structure Inputs where
  starting_year : ℤ
  forecast_years : ℤ
  beginning_reserve_balance : ℚ
  inflation_rate : ℚ
  investment_return_rate : ℚ
  spend_inflation_timing : String
  spend_inflation_offset : ℚ
  audit_tolerance_amount : ℚ
  audit_tolerance_ratio : ℚ
  deriving DecidableEq

/-- `reserve/model.py` dataclass `Component`. The source field `include` is a
Lean keyword, so it is named `includeFlag` here. -/
structure Component where
  id : String
  name : String
  category : String
  base_cost : ℚ
  spend_year : ℤ
  recurring : Bool
  interval_years : Option ℤ
  includeFlag : Bool
  row_index : ℤ
  deriving DecidableEq

/-- `reserve/schedule.py` dataclass `ScheduleItem`. -/
structure ScheduleItem where
  year : ℤ
  component_id : String
  component_name : String
  base_cost : ℚ
  component_row : ℤ
  nominal_expense : ℚ
  deriving DecidableEq

/-- `reserve/model.py` dataclass `ForecastRow`. -/
structure ForecastRow where
  year : ℤ
  begin_balance : ℚ
  contributions : ℚ
  interest : ℚ
  expenses : ℚ
  end_balance : ℚ
  deriving DecidableEq

/-- `reserve/model.py` `_parse_spend_inflation_timing`: maps the timing enum to
the inflation-exponent offset, raising `ValueError` on anything else. -/
def parseSpendInflationTiming (value : String) : Except String ℚ :=
  let normalized := pyLower (pyStrip value)
  if normalized = "start_of_year" then .ok 0
  else if normalized = "mid_year" then .ok (1/2)
  else if normalized = "end_of_year" then .ok 1
  else .error "spend_inflation_timing must be one of: start_of_year, mid_year, end_of_year"

/-- The `while year <= end_year` loop of `expand_schedule`
(`reserve/schedule.py` lines 34-38): starting from `year`, step by the
interval `k`, keeping the years inside `[startY, endY]`.  The loop in the
source runs only after the `interval <= 0` guard, so `k` is passed as a
`ℕ` and the positivity test (always true at call sites) doubles as the
termination guard. -/
def loopYears (startY endY : ℤ) (k : ℕ) (year : ℤ) : List ℤ :=
  if _h : 0 < k ∧ year ≤ endY then
    (if startY ≤ year then [year] else []) ++ loopYears startY endY k (year + k)
  else []
termination_by (endY + 1 - year).toNat
decreasing_by
  omega

/-- The per-component `years` list computed by `expand_schedule`
(`reserve/schedule.py` lines 29-41). -/
def perComponentYears (inputs : Inputs) (c : Component) : List ℤ :=
  let endYear := inputs.starting_year + inputs.forecast_years - 1
  if c.recurring then
    let interval := c.interval_years.getD 0
    if interval ≤ 0 then []
    else loopYears inputs.starting_year endYear interval.toNat c.spend_year
  else
    if inputs.starting_year ≤ c.spend_year ∧ c.spend_year ≤ endYear then [c.spend_year]
    else []

/-- The `ScheduleItem`s appended for one component by `expand_schedule`
(`reserve/schedule.py` lines 43-56); `pw` is the float `**`. -/
def perComponentItems (pw : ℚ → ℚ → ℚ) (inputs : Inputs) (c : Component) :
    List ScheduleItem :=
  (perComponentYears inputs c).map fun y =>
    { year := y
      component_id := c.id
      component_name := c.name
      base_cost := c.base_cost
      component_row := c.row_index
      nominal_expense :=
        c.base_cost * pw (1 + inputs.inflation_rate)
          ((y : ℚ) - (inputs.starting_year : ℚ) + inputs.spend_inflation_offset) }

/-- The sort key used at `reserve/schedule.py` line 58:
`key=lambda item: (item.year, item.component_id)` — Python tuple comparison,
i.e. lexicographic on (year, id). -/
def itemKeyLE (a b : ScheduleItem) : Prop :=
  a.year < b.year ∨ (a.year = b.year ∧ a.component_id ≤ b.component_id)

instance : DecidableRel itemKeyLE := fun a b =>
  inferInstanceAs (Decidable (a.year < b.year ∨ (a.year = b.year ∧ a.component_id ≤ b.component_id)))

instance : IsTrans ScheduleItem itemKeyLE := by
  constructor
  intro a b c hab hbc
  rcases hab with h1 | ⟨h1, h1'⟩ <;> rcases hbc with h2 | ⟨h2, h2'⟩
  · exact Or.inl (h1.trans h2)
  · exact Or.inl (h2 ▸ h1)
  · exact Or.inl (h1 ▸ h2)
  · exact Or.inr ⟨h1.trans h2, le_trans h1' h2'⟩

instance : IsTotal ScheduleItem itemKeyLE := by
  constructor
  intro a b
  rcases lt_trichotomy a.year b.year with h | h | h
  · exact Or.inl (Or.inl h)
  · rcases le_total a.component_id b.component_id with h' | h'
    · exact Or.inl (Or.inr ⟨h, h'⟩)
    · exact Or.inr (Or.inr ⟨h.symm, h'⟩)
  · exact Or.inr (Or.inl h)

/-- `reserve/schedule.py` `expand_schedule`: per-component expansion over the
included components, then a stable sort by `(year, component_id)`
(`list.sort` is modelled by `List.insertionSort`, which is also stable). -/
def expandSchedule (pw : ℚ → ℚ → ℚ) (components : List Component)
    (inputs : Inputs) : List ScheduleItem :=
  List.insertionSort itemKeyLE
    (components.flatMap fun c => if c.includeFlag then perComponentItems pw inputs c else [])

/-- The year-indexed loop of `reserve/model.py` `compute_forecast`
(lines 217-232), with the iteration count and running balance explicit. -/
def forecastLoop (inputs : Inputs) (contributions scheduleExpenses : ℤ → Option ℚ) :
    ℕ → ℤ → ℚ → List ForecastRow
  | 0, _, _ => []
  | n + 1, year, beginBalance =>
    let contribution := (contributions year).getD 0
    let interest := beginBalance * inputs.investment_return_rate
    let expenses := (scheduleExpenses year).getD 0
    let endBalance := beginBalance + contribution + interest - expenses
    { year := year
      begin_balance := beginBalance
      contributions := contribution
      interest := interest
      expenses := expenses
      end_balance := endBalance } ::
      forecastLoop inputs contributions scheduleExpenses n (year + 1) endBalance

/-- `reserve/model.py` `compute_forecast`: `range(start_year, end_year + 1)`
has `max 0 forecast_years = forecast_years.toNat` elements. -/
def computeForecast (inputs : Inputs) (contributions scheduleExpenses : ℤ → Option ℚ) :
    List ForecastRow :=
  forecastLoop inputs contributions scheduleExpenses inputs.forecast_years.toNat
    inputs.starting_year inputs.beginning_reserve_balance

/-- `reserve/model.py` `expenses_by_year`: fold the schedule items into a
year-keyed totals dict. -/
def expensesByYear (items : List ScheduleItem) : ℤ → Option ℚ :=
  items.foldl
    (fun totals item => fun y =>
      if y = item.year then some ((totals item.year).getD 0 + item.nominal_expense)
      else totals y)
    (fun _ => none)

/-- The inflated cost used by `reserve/excel.py` `_fully_funded_balance`
(lines 388-391): `base_cost * (1 + inflation_rate) ** (year - starting_year +
spend_inflation_offset)`, with `pw` the float `**`. -/
def inflatedCost (pw : ℚ → ℚ → ℚ) (inputs : Inputs) (c : Component) (y : ℤ) : ℚ :=
  c.base_cost * pw (1 + inputs.inflation_rate)
    ((y : ℚ) - (inputs.starting_year : ℚ) + inputs.spend_inflation_offset)

/-- The per-component funding fraction computed inside
`reserve/excel.py` `_fully_funded_balance` (lines 393-413), factored out of
the summation loop.  The recurring branch uses `math.ceil` of a true
division, modelled by `Int.ceil` on `ℚ`. -/
def nativeFraction (inputs : Inputs) (c : Component) (y : ℤ) : ℚ :=
  if c.recurring then
    let interval := c.interval_years.getD 0
    if interval ≤ 0 then 0
    else
      let yearsToNext : ℤ :=
        if y ≤ c.spend_year then c.spend_year - y
        else
          let cycles : ℤ := ⌈(((y - c.spend_year : ℤ) : ℚ)) / ((interval : ℤ) : ℚ)⌉
          c.spend_year + cycles * interval - y
      let recurringAge : ℤ := interval - yearsToNext
      if recurringAge ≤ 0 then 0 else (recurringAge : ℚ) / (interval : ℚ)
  else
    if c.spend_year < y then 0
    else if c.spend_year - inputs.starting_year ≤ 0 then 1
    else ((y : ℚ) - (inputs.starting_year : ℚ)) /
      ((c.spend_year : ℚ) - (inputs.starting_year : ℚ))

/-- `reserve/excel.py` `_fully_funded_balance`: sum of inflated cost times
funding fraction over the included components. -/
def fullyFundedBalance (pw : ℚ → ℚ → ℚ) (components : List Component)
    (inputs : Inputs) (y : ℤ) : ℚ :=
  (components.map fun c =>
    if c.includeFlag then inflatedCost pw inputs c y * nativeFraction inputs c y
    else 0).sum

/-- Arithmetic denotation of the `recurring_age` cell formula emitted by
`_write_funding_sheet` (`reserve/excel.py` lines 315-322):
`IF(interval<=0,0, IF(delta>=0, IF(MOD(delta,interval)=0, interval,
MOD(delta,interval)), interval+delta))` with `delta = year - spend_year`.
Excel `MOD` with a positive divisor agrees with `Int.emod` (`%`). -/
def excelRecurringAge (y s k : ℤ) : ℤ :=
  let delta := y - s
  if k ≤ 0 then 0
  else if 0 ≤ delta then (if delta % k = 0 then k else delta % k)
  else k + delta

/-- Arithmetic denotation of the `recurring_fraction` cell formula emitted by
`_write_funding_sheet` (`reserve/excel.py` lines 323-326):
`IF(interval<=0,0, IF(age<=0,0, age/interval))`. -/
def excelRecurringFraction (y s k : ℤ) : ℚ :=
  if k ≤ 0 then 0
  else if excelRecurringAge y s k ≤ 0 then 0
  else ((excelRecurringAge y s k : ℤ) : ℚ) / ((k : ℤ) : ℚ)

/-- Denotation of the `percent_funded` cell formula emitted by
`_write_forecast_sheet` (`reserve/excel.py` line 553):
`IF(total=0,"",begin/total)` — the empty cell is `none`. -/
def formulaPercentFunded (fullyFunded beginBalance : ℚ) : Option ℚ :=
  if fullyFunded = 0 then none else some (beginBalance / fullyFunded)

/-- Denotation of the `coverage_5yr` cell formula emitted by
`_write_forecast_sheet` (`reserve/excel.py` line 560):
`IF(sum=0,"",begin/sum)` — the empty cell is `none`. -/
def formulaCoverage5yr (coverageSum beginBalance : ℚ) : Option ℚ :=
  if coverageSum = 0 then none else some (beginBalance / coverageSum)

/-- The 5-year expense window sum of `_compute_audit_expected`
(`reserve/excel.py` lines 441-445): expenses over
`range(year, min(year + 4, end_year) + 1)`. -/
def coverageWindowSum (inputs : Inputs) (scheduleExpenses : ℤ → Option ℚ)
    (year : ℤ) : ℚ :=
  let endYear := inputs.starting_year + inputs.forecast_years - 1
  let coverageEnd := min (year + 4) endYear
  ((List.range (coverageEnd + 1 - year).toNat).map fun i =>
    (scheduleExpenses (year + i)).getD 0).sum

/-- One row of the `expected_rows` table built by `_compute_audit_expected`
(`reserve/excel.py` lines 448-459); `percent_funded` and `coverage_5yr` are
`None` when their denominator is zero. -/
structure ExpectedRow where
  year : ℤ
  begin_balance : ℚ
  contributions : ℚ
  cumulative_contributions : ℚ
  interest : ℚ
  cumulative_interest : ℚ
  expenses : ℚ
  end_balance : ℚ
  percent_funded : Option ℚ
  coverage_5yr : Option ℚ
  deriving DecidableEq

/-- The row loop of `_compute_audit_expected` (`reserve/excel.py`
lines 434-459), carrying the running cumulative contribution/interest sums. -/
def auditLoop (pw : ℚ → ℚ → ℚ) (inputs : Inputs) (components : List Component)
    (scheduleExpenses : ℤ → Option ℚ) :
    List ForecastRow → ℚ → ℚ → List ExpectedRow
  | [], _, _ => []
  | row :: rest, cumulativeContrib, cumulativeInterest =>
    let cumulativeContrib := cumulativeContrib + row.contributions
    let cumulativeInterest := cumulativeInterest + row.interest
    let fullyFunded := fullyFundedBalance pw components inputs row.year
    let percentFunded : Option ℚ :=
      if fullyFunded = 0 then none else some (row.begin_balance / fullyFunded)
    let coverageSum := coverageWindowSum inputs scheduleExpenses row.year
    let coverage : Option ℚ :=
      if coverageSum = 0 then none else some (row.begin_balance / coverageSum)
    { year := row.year
      begin_balance := row.begin_balance
      contributions := row.contributions
      cumulative_contributions := cumulativeContrib
      interest := row.interest
      cumulative_interest := cumulativeInterest
      expenses := row.expenses
      end_balance := row.end_balance
      percent_funded := percentFunded
      coverage_5yr := coverage } ::
      auditLoop pw inputs components scheduleExpenses rest cumulativeContrib
        cumulativeInterest

/-- `reserve/excel.py` `_compute_audit_expected`: native forecast plus the
derived audit columns. -/
def computeAuditExpected (pw : ℚ → ℚ → ℚ) (inputs : Inputs)
    (components : List Component) (items : List ScheduleItem)
    (contributions : ℤ → Option ℚ) : List ExpectedRow :=
  let scheduleExpenses := expensesByYear items
  auditLoop pw inputs components scheduleExpenses
    (computeForecast inputs contributions scheduleExpenses) 0 0

/-- Python `int(...)` on the (already stripped) strings fed to the validator:
an optional sign followed by decimal digits; anything else raises
`ValueError`, modelled as `none`. -/
def parseIntStr (s : String) : Option ℤ :=
  let digitsVal : List Char → ℤ := fun l =>
    ((l.foldl (fun acc ch => acc * 10 + (ch.toNat - 48)) 0 : ℕ) : ℤ)
  match s.data with
  | [] => none
  | ch :: rest =>
    if ch = Char.ofNat 45 then
      if rest ≠ [] ∧ rest.all Char.isDigit then some (-(digitsVal rest)) else none
    else if ch = Char.ofNat 43 then
      if rest ≠ [] ∧ rest.all Char.isDigit then some (digitsVal rest) else none
    else if (ch :: rest).all Char.isDigit then some (digitsVal (ch :: rest))
    else none

/-- One CSV record handed to `_validate_components_csv`
(`reserve/validate.py`); each field is the raw cell text, with missing cells
already replaced by `""` as `row.get(...) or ""` does. -/
structure ComponentCsvRow where
  id : String
  name : String
  category : String
  base_cost : String
  spend_year : String
  recurring : String
  interval_years : String
  includeField : String
  deriving DecidableEq

/-- The per-row check of `_validate_components_csv`
(`reserve/validate.py` lines 111-160), returning the `(errors, warnings)`
this row contributes.  Note the source performs no check whatsoever on
`base_cost`. -/
def validateComponentRow (startYear endYear : ℤ) (rowNumber : ℕ)
    (row : ComponentCsvRow) : List String × List String :=
  let rawId := pyStrip row.id
  let rawName := pyStrip row.name
  if rawId = "" ∧ rawName = "" then ([], [])
  else
    let recurring := pyUpper (pyStrip row.recurring)
    let includeF := pyUpper (pyStrip row.includeField)
    let rowTag := "components.csv row " ++ toString rowNumber ++ ": "
    let flagErrors :=
      (if recurring ≠ "Y" ∧ recurring ≠ "N" then
        [rowTag ++ "recurring must be Y or N"] else []) ++
      (if includeF ≠ "Y" ∧ includeF ≠ "N" then
        [rowTag ++ "include must be Y or N"] else [])
    let spendYearRaw := pyStrip row.spend_year
    let spendResult : List String × List String :=
      if spendYearRaw ≠ "" then
        match parseIntStr spendYearRaw with
        | some spendYear =>
          if spendYear < startYear ∨ spendYear > endYear then
            ([], [rowTag ++ "spend_year " ++ toString spendYear ++
              " outside forecast window"])
          else ([], [])
        | none => ([rowTag ++ "spend_year must be an integer"], [])
      else ([rowTag ++ "spend_year is required"], [])
    let intervalRaw := pyStrip row.interval_years
    let intervalErrors :=
      if recurring = "Y" then
        if intervalRaw = "" then
          [rowTag ++ "interval_years required for recurring items"]
        else
          match parseIntStr intervalRaw with
          | some interval =>
            if interval ≤ 0 then [rowTag ++ "interval_years must be > 0"] else []
          | none => [rowTag ++ "interval_years must be an integer"]
      else []
    (flagErrors ++ spendResult.1 ++ intervalErrors, spendResult.2)

/-! Concrete data used to instantiate the theorems below; the scenario mirrors
the repository's own test fixtures (`tests/test_model.py`). -/

/-- A concrete interpretation of the float `**` for instantiations. -/
def demoPw : ℚ → ℚ → ℚ := fun _ _ => 1

def demoInputs : Inputs :=
  { starting_year := 2025
    forecast_years := 3
    beginning_reserve_balance := 1000
    inflation_rate := 0
    investment_return_rate := 1/10
    spend_inflation_timing := "end_of_year"
    spend_inflation_offset := 1
    audit_tolerance_amount := 1/100
    audit_tolerance_ratio := 1/10000 }

def demoNonRecurring : Component :=
  { id := "paint"
    name := "Paint"
    category := "Exterior"
    base_cost := 100
    spend_year := 2026
    recurring := false
    interval_years := none
    includeFlag := true
    row_index := 2 }

def demoRecurring : Component :=
  { id := "roof"
    name := "Roof"
    category := "Building"
    base_cost := 1000
    spend_year := 2025
    recurring := true
    interval_years := some 5
    includeFlag := true
    row_index := 3 }

def demoContribs : ℤ → Option ℚ :=
  fun y => if 2025 ≤ y ∧ y ≤ 2027 then some 200 else none

/-- Same as `demoContribs` inside the 2025-2027 window, different outside. -/
def demoContribsOutside : ℤ → Option ℚ :=
  fun y => if y = 2024 then some 57 else if 2025 ≤ y ∧ y ≤ 2027 then some 200 else none

/-- A defensive-case component: recurring with a zero interval. -/
def demoZeroInterval : Component :=
  { id := "fence"
    name := "Fence"
    category := "Grounds"
    base_cost := 50
    spend_year := 2025
    recurring := true
    interval_years := some 0
    includeFlag := true
    row_index := 4 }

def demoItem : ScheduleItem :=
  { year := 2026
    component_id := "paint"
    component_name := "Paint"
    base_cost := 100
    component_row := 2
    nominal_expense := 100 }

/-! ### Lemmas about the forecast recurrence -/

theorem forecastLoop_mem_fields (inputs : Inputs) (c s : ℤ → Option ℚ) :
    ∀ (n : ℕ) (year : ℤ) (bal : ℚ) (r : ForecastRow),
      r ∈ forecastLoop inputs c s n year bal →
        r.contributions = (c r.year).getD 0
        ∧ r.interest = r.begin_balance * inputs.investment_return_rate
        ∧ r.expenses = (s r.year).getD 0
        ∧ r.end_balance =
            r.begin_balance + r.contributions + r.interest - r.expenses := by
  intro n
  induction n with
  | zero => intro year bal r hr; simp [forecastLoop] at hr
  | succ n ih =>
    intro year bal r hr
    rw [forecastLoop] at hr
    rcases List.mem_cons.mp hr with h | h
    · subst h; refine ⟨rfl, rfl, rfl, rfl⟩
    · exact ih (year + 1) _ r h

theorem forecastLoop_head_begin (inputs : Inputs) (c s : ℤ → Option ℚ) :
    ∀ (n : ℕ) (year : ℤ) (bal : ℚ) (r : ForecastRow)
      (rest : List ForecastRow),
      forecastLoop inputs c s n year bal = r :: rest → r.begin_balance = bal := by
  intro n year bal r rest h
  cases n with
  | zero => simp [forecastLoop] at h
  | succ n => rw [forecastLoop] at h; injection h with h1 _; rw [← h1]

theorem forecastLoop_chain (inputs : Inputs) (c s : ℤ → Option ℚ) :
    ∀ (n : ℕ) (year : ℤ) (bal : ℚ),
      List.Chain' (fun a b => b.begin_balance = a.end_balance)
        (forecastLoop inputs c s n year bal) := by
  intro n
  induction n with
  | zero => intro year bal; simp [forecastLoop]
  | succ n ih =>
    intro year bal
    rw [forecastLoop]
    refine List.chain'_cons'.mpr ⟨?_, ih (year + 1) _⟩
    intro b hb
    rcases hrec : forecastLoop inputs c s n (year + 1)
        (bal + (c year).getD 0 + bal * inputs.investment_return_rate -
          (s year).getD 0) with _ | ⟨r, rest⟩ <;> rw [hrec] at hb
    · simp at hb
    · simp at hb
      rw [← hb]
      exact forecastLoop_head_begin inputs c s n (year + 1) _ r rest hrec

theorem range_map_add_shift (n : ℕ) (year : ℤ) :
    (List.range (n + 1)).map (fun i : ℕ => year + (i : ℤ))
      = year :: (List.range n).map (fun i : ℕ => (year + 1) + (i : ℤ)) := by
  rw [List.range_succ_eq_map, List.map_cons, List.map_map]
  refine congrArg₂ _ (by simp) (List.map_congr_left ?_)
  intro i _
  simp only [Function.comp_apply]
  push_cast
  ring

theorem forecastLoop_length (inputs : Inputs) (c s : ℤ → Option ℚ) :
    ∀ (n : ℕ) (year : ℤ) (bal : ℚ),
      (forecastLoop inputs c s n year bal).length = n := by
  intro n
  induction n with
  | zero => intro year bal; rfl
  | succ n ih => intro year bal; rw [forecastLoop, List.length_cons, ih (year + 1)]

theorem forecastLoop_map_year (inputs : Inputs) (c s : ℤ → Option ℚ) :
    ∀ (n : ℕ) (year : ℤ) (bal : ℚ),
      (forecastLoop inputs c s n year bal).map (fun r => r.year)
        = (List.range n).map (fun i : ℕ => year + (i : ℤ)) := by
  intro n
  induction n with
  | zero => intro year bal; simp [forecastLoop]
  | succ n ih =>
    intro year bal
    rw [forecastLoop, List.map_cons, range_map_add_shift, ih (year + 1)]

theorem forecastLoop_congr (inputs : Inputs) (c₁ c₂ s : ℤ → Option ℚ) :
    ∀ (n : ℕ) (year : ℤ) (bal : ℚ),
      (∀ y : ℤ, year ≤ y → y < year + n → c₁ y = c₂ y) →
      forecastLoop inputs c₁ s n year bal = forecastLoop inputs c₂ s n year bal := by
  intro n
  induction n with
  | zero => intro year bal _; rfl
  | succ n ih =>
    intro year bal h
    have hy : c₁ year = c₂ year := h year le_rfl (by omega)
    rw [forecastLoop, forecastLoop, hy]
    refine congrArg _ ?_
    exact ih (year + 1) _ (fun y h1 h2 => h y (by omega) (by omega))

theorem expensesByYear_foldl (y : ℤ) :
    ∀ (items : List ScheduleItem) (acc : ℤ → Option ℚ),
      ((items.foldl
          (fun totals item => fun z =>
            if z = item.year then
              some ((totals item.year).getD 0 + item.nominal_expense)
            else totals z)
          acc) y).getD 0
        = (acc y).getD 0
          + ((items.filter fun it => it.year = y).map
              fun it => it.nominal_expense).sum := by
  intro items
  induction items with
  | nil => intro acc; simp
  | cons it rest ih =>
    intro acc
    rw [List.foldl_cons, ih]
    by_cases h : it.year = y
    · subst h
      simp [List.filter_cons]
      ring
    · have h' : ¬(y = it.year) := fun hh => h hh.symm
      simp [List.filter_cons, h, h']

theorem expensesByYear_getD (items : List ScheduleItem) (y : ℤ) :
    ((expensesByYear items) y).getD 0
      = ((items.filter fun it => it.year = y).map
          fun it => it.nominal_expense).sum := by
  rw [expensesByYear, expensesByYear_foldl]
  simp

/-- **C3.** Every forecast row satisfies the per-year accounting equations —
interest is `begin_balance × investment_return_rate`, expenses are the sum of
that year's schedule items' nominal expenses (0 if none), `end_balance =
begin_balance + contributions + interest − expenses`, with missing
contribution entries read as 0 — the first row opens with
`beginning_reserve_balance`, and each next row opens with the previous row's
`end_balance` (the chain invariant). -/
theorem claim_C3_forecast_recurrence (inputs : Inputs)
    (contribs : ℤ → Option ℚ) (items : List ScheduleItem) :
    (∀ r ∈ computeForecast inputs contribs (expensesByYear items),
        r.contributions = (contribs r.year).getD 0
        ∧ r.interest = r.begin_balance * inputs.investment_return_rate
        ∧ r.expenses = ((items.filter fun it => it.year = r.year).map
            fun it => it.nominal_expense).sum
        ∧ r.end_balance =
            r.begin_balance + r.contributions + r.interest - r.expenses)
    ∧ (∀ r ∈ (computeForecast inputs contribs (expensesByYear items)).head?,
        r.begin_balance = inputs.beginning_reserve_balance)
    ∧ List.Chain' (fun a b => b.begin_balance = a.end_balance)
        (computeForecast inputs contribs (expensesByYear items)) := by
  refine ⟨?_, ?_, forecastLoop_chain inputs contribs (expensesByYear items) _ _ _⟩
  · intro r hr
    obtain ⟨h1, h2, h3, h4⟩ :=
      forecastLoop_mem_fields inputs contribs (expensesByYear items) _ _ _ r hr
    exact ⟨h1, h2, by rw [h3, expensesByYear_getD], h4⟩
  · intro r hr
    rw [computeForecast] at hr
    rcases hrec : forecastLoop inputs contribs (expensesByYear items)
        inputs.forecast_years.toNat inputs.starting_year
        inputs.beginning_reserve_balance with _ | ⟨a, rest⟩ <;> rw [hrec] at hr
    · simp at hr
    · simp at hr
      rw [← hr]
      exact forecastLoop_head_begin inputs contribs (expensesByYear items)
        _ _ _ a rest hrec

/-- Witness for C3 on the `tests/test_model.py` scenario. -/
theorem claim_C3_forecast_recurrence_witness :
    (computeForecast demoInputs demoContribs (expensesByYear [demoItem]) ≠ [])
    ∧ ∀ h : computeForecast demoInputs demoContribs (expensesByYear [demoItem]) ≠ [],
        ((computeForecast demoInputs demoContribs
            (expensesByYear [demoItem])).head h).interest
          = ((computeForecast demoInputs demoContribs
              (expensesByYear [demoItem])).head h).begin_balance
            * demoInputs.investment_return_rate := by
  refine ⟨by decide, fun h => ?_⟩
  exact ((claim_C3_forecast_recurrence demoInputs demoContribs [demoItem]).1
    _ (List.head_mem h)).2.1

/-- **C8.** `compute_forecast` returns exactly `forecast_years` rows whose
years are `starting_year, starting_year + 1, …, starting_year +
forecast_years − 1` — unique, contiguous and ascending. -/
theorem claim_C8_forecast_years (inputs : Inputs)
    (contribs scheduleExpenses : ℤ → Option ℚ)
    (h : 1 ≤ inputs.forecast_years) :
    ((computeForecast inputs contribs scheduleExpenses).length : ℤ)
        = inputs.forecast_years
    ∧ (computeForecast inputs contribs scheduleExpenses).map (fun r => r.year)
        = (List.range inputs.forecast_years.toNat).map
            (fun i : ℕ => inputs.starting_year + (i : ℤ)) := by
  constructor
  · rw [computeForecast, forecastLoop_length]
    omega
  · exact forecastLoop_map_year inputs contribs scheduleExpenses _ _ _

/-- Witness for C8 on the demo scenario. -/
theorem claim_C8_forecast_years_witness :
    (1 ≤ demoInputs.forecast_years)
    ∧ ((computeForecast demoInputs demoContribs (fun _ => none)).length : ℤ)
        = demoInputs.forecast_years :=
  ⟨by decide,
    (claim_C8_forecast_years demoInputs demoContribs (fun _ => none) (by decide)).1⟩

/-- **C10.** Contribution entries for years outside the forecast window never
influence the forecast: two contribution maps agreeing on
`[starting_year, starting_year + forecast_years − 1]` yield identical rows. -/
theorem claim_C10_window_noninterference (inputs : Inputs)
    (c₁ c₂ scheduleExpenses : ℤ → Option ℚ)
    (h : ∀ y : ℤ, inputs.starting_year ≤ y →
      y ≤ inputs.starting_year + inputs.forecast_years - 1 → c₁ y = c₂ y) :
    computeForecast inputs c₁ scheduleExpenses
      = computeForecast inputs c₂ scheduleExpenses := by
  rw [computeForecast, computeForecast]
  refine forecastLoop_congr inputs c₁ c₂ scheduleExpenses _ _ _ ?_
  intro y h1 h2
  refine h y h1 ?_
  omega

/-- Witness for C10: a contribution entry for 2024 (outside the 2025-2027
window) does not change the forecast. -/
theorem claim_C10_window_noninterference_witness :
    (∀ y : ℤ, demoInputs.starting_year ≤ y →
        y ≤ demoInputs.starting_year + demoInputs.forecast_years - 1 →
        demoContribs y = demoContribsOutside y)
    ∧ computeForecast demoInputs demoContribs (fun _ => none)
        = computeForecast demoInputs demoContribsOutside (fun _ => none) := by
  have hagree : ∀ y : ℤ, demoInputs.starting_year ≤ y →
      y ≤ demoInputs.starting_year + demoInputs.forecast_years - 1 →
      demoContribs y = demoContribsOutside y := by
    intro y h1 h2
    simp only [demoInputs] at h1 h2
    have hy : 2025 ≤ y ∧ y ≤ 2027 := ⟨h1, by omega⟩
    simp only [demoContribs, demoContribsOutside, if_pos hy]
    rw [if_neg (by omega)]
  exact ⟨hagree,
    claim_C10_window_noninterference demoInputs demoContribs demoContribsOutside
      (fun _ => none) hagree⟩

/-! ### Lemmas about the funding-fraction arithmetic -/

theorem intCeil_div_bounds (a k : ℤ) (hk : 0 < k) :
    a ≤ ⌈((a : ℤ) : ℚ) / ((k : ℤ) : ℚ)⌉ * k
    ∧ (⌈((a : ℤ) : ℚ) / ((k : ℤ) : ℚ)⌉ - 1) * k < a := by
  have hkq : (0 : ℚ) < ((k : ℤ) : ℚ) := by exact_mod_cast hk
  constructor
  · have h1 : ((a : ℤ) : ℚ) / ((k : ℤ) : ℚ)
        ≤ ((⌈((a : ℤ) : ℚ) / ((k : ℤ) : ℚ)⌉ : ℤ) : ℚ) := Int.le_ceil _
    have h2 : ((a : ℤ) : ℚ)
        ≤ ((⌈((a : ℤ) : ℚ) / ((k : ℤ) : ℚ)⌉ : ℤ) : ℚ) * ((k : ℤ) : ℚ) :=
      (div_le_iff₀ hkq).mp h1
    exact_mod_cast h2
  · by_contra hcon
    push_neg at hcon
    have h3 : ((a : ℤ) : ℚ)
        ≤ (((⌈((a : ℤ) : ℚ) / ((k : ℤ) : ℚ)⌉ - 1 : ℤ)) : ℚ) * ((k : ℤ) : ℚ) := by
      exact_mod_cast hcon
    have h4 := Int.ceil_le.mpr ((div_le_iff₀ hkq).mpr h3)
    omega

theorem intCeil_mul_sub (a k : ℤ) (hk : 0 < k) :
    ⌈((a : ℤ) : ℚ) / ((k : ℤ) : ℚ)⌉ * k - a
      = if a % k = 0 then 0 else k - a % k := by
  obtain ⟨hub, hlb⟩ := intCeil_div_bounds a k hk
  set cc := ⌈((a : ℤ) : ℚ) / ((k : ℤ) : ℚ)⌉ with hcc
  have hqr : k * (a / k) + a % k = a := Int.ediv_add_emod a k
  have hr0 : 0 ≤ a % k := Int.emod_nonneg a (ne_of_gt hk)
  have hrk : a % k < k := Int.emod_lt_of_pos a hk
  set q := a / k with hq
  set r := a % k with hr
  have e : q * k = k * q := mul_comm q k
  have e2 : (q + 1) * k = k * q + k := by ring
  by_cases h : r = 0
  · have h1 : q ≤ cc := le_of_mul_le_mul_right (by linarith) hk
    have h2 : cc - 1 < q := lt_of_mul_lt_mul_right (by linarith) hk.le
    have hccq : cc = q := by omega
    rw [if_pos h, hccq]
    linarith
  · have hrpos : 0 < r := lt_of_le_of_ne hr0 (Ne.symm h)
    have h1 : q < cc := lt_of_mul_lt_mul_right (by linarith) hk.le
    have h2 : cc - 1 < q + 1 := lt_of_mul_lt_mul_right (by linarith) hk.le
    have hccq : cc = q + 1 := by omega
    rw [if_neg h, hccq]
    linarith

/-- The MOD-based recurring age (formula path) equals `interval −
years_to_next` with `years_to_next` computed by ceiling division from
`spend_year` (native path), for any positive interval. -/
theorem excelAge_eq_native (y s k : ℤ) (hk : 0 < k) :
    excelRecurringAge y s k
      = k - (if y ≤ s then s - y
             else s + ⌈(((y - s : ℤ)) : ℚ) / ((k : ℤ) : ℚ)⌉ * k - y) := by
  rcases lt_trichotomy y s with h | h | h
  · rw [if_pos (by omega : y ≤ s)]
    unfold excelRecurringAge
    simp only []
    rw [if_neg (by omega : ¬ k ≤ 0), if_neg (by omega : ¬ (0 : ℤ) ≤ y - s)]
    omega
  · subst h
    rw [if_pos le_rfl]
    unfold excelRecurringAge
    simp only [sub_self]
    rw [if_neg (by omega : ¬ k ≤ 0), if_pos le_rfl,
      if_pos (Int.zero_emod k)]
    omega
  · rw [if_neg (by omega : ¬ y ≤ s)]
    have hsub := intCeil_mul_sub (y - s) k hk
    unfold excelRecurringAge
    simp only []
    rw [if_neg (by omega : ¬ k ≤ 0), if_pos (by omega : (0 : ℤ) ≤ y - s)]
    by_cases hmod : (y - s) % k = 0
    · rw [if_pos hmod]
      rw [if_pos hmod] at hsub
      omega
    · rw [if_neg hmod]
      rw [if_neg hmod] at hsub
      have hr0 : 0 ≤ (y - s) % k := Int.emod_nonneg _ (ne_of_gt hk)
      omega

/-- **C1.** For every evaluation year, spend year and positive interval, the
MOD-based recurring-age/fraction conditional emitted into the funding-grid
cells is logically equivalent to the ceiling-based native computation of
`_fully_funded_balance`, including the zero clamps and the boundary where
the evaluation year lands exactly on an occurrence. -/
theorem claim_C1_recurring_formula_equiv (inputs : Inputs) (c : Component)
    (y : ℤ) (hrec : c.recurring = true)
    (hk : 0 < c.interval_years.getD 0) :
    excelRecurringFraction y c.spend_year (c.interval_years.getD 0)
      = nativeFraction inputs c y := by
  unfold nativeFraction excelRecurringFraction
  rw [hrec]
  simp only [if_true]
  rw [if_neg (by omega : ¬ c.interval_years.getD 0 ≤ 0),
    if_neg (by omega : ¬ c.interval_years.getD 0 ≤ 0)]
  rw [← excelAge_eq_native y c.spend_year (c.interval_years.getD 0) hk]

/-- Witness for C1 at the demo recurring component (interval 5), evaluated at
its own spend year. -/
theorem claim_C1_recurring_formula_equiv_witness :
    (demoRecurring.recurring = true ∧ 0 < demoRecurring.interval_years.getD 0)
    ∧ excelRecurringFraction 2025 demoRecurring.spend_year
        (demoRecurring.interval_years.getD 0)
      = nativeFraction demoInputs demoRecurring 2025 :=
  ⟨⟨by decide, by decide⟩,
    claim_C1_recurring_formula_equiv demoInputs demoRecurring 2025 (by decide)
      (by decide)⟩

/-- **C4.** For every component and every year in the forecast window the
native funding fraction lies in `[0, 1]`; for a non-recurring component it is
0 strictly after `spend_year` and equals 1 exactly at `spend_year` (when
`spend_year = starting_year` the only window year up to `spend_year` is
`spend_year` itself, so the "immediately 1" reading coincides). -/
theorem claim_C4_fraction_range (inputs : Inputs) (c : Component) (y : ℤ)
    (h1 : inputs.starting_year ≤ y)
    (h2 : y ≤ inputs.starting_year + inputs.forecast_years - 1) :
    (0 ≤ nativeFraction inputs c y ∧ nativeFraction inputs c y ≤ 1)
    ∧ (c.recurring = false →
        (c.spend_year < y → nativeFraction inputs c y = 0)
        ∧ (nativeFraction inputs c y = 1 ↔ y = c.spend_year)) := by
  by_cases hrec : c.recurring
  · constructor
    · unfold nativeFraction
      rw [hrec]
      simp only [if_true]
      by_cases hk : c.interval_years.getD 0 ≤ 0
      · rw [if_pos hk]; norm_num
      · rw [if_neg hk]
        push_neg at hk
        set k := c.interval_years.getD 0 with hkdef
        set ytn : ℤ :=
          if y ≤ c.spend_year then c.spend_year - y
          else c.spend_year
            + ⌈(((y - c.spend_year : ℤ)) : ℚ) / ((k : ℤ) : ℚ)⌉ * k - y
          with hytn
        have hytn0 : 0 ≤ ytn := by
          rw [hytn]
          by_cases hys : y ≤ c.spend_year
          · rw [if_pos hys]; omega
          · rw [if_neg hys]
            have := (intCeil_div_bounds (y - c.spend_year) k hk).1
            omega
        by_cases hage : k - ytn ≤ 0
        · rw [if_pos hage]; norm_num
        · rw [if_neg hage]
          have hkq : (0 : ℚ) < ((k : ℤ) : ℚ) := by exact_mod_cast hk
          constructor
          · apply div_nonneg _ hkq.le
            have : (0 : ℤ) ≤ k - ytn := by omega
            exact_mod_cast this
          · rw [div_le_one hkq]
            have : (k - ytn : ℤ) ≤ k := by omega
            exact_mod_cast this
    · intro hfalse
      rw [hrec] at hfalse
      exact absurd hfalse (by simp)
  · have hrec' : c.recurring = false := by
      cases hcr : c.recurring
      · rfl
      · exact absurd hcr hrec
    unfold nativeFraction
    rw [hrec']
    simp only [Bool.false_eq_true, if_false]
    by_cases hlt : c.spend_year < y
    · rw [if_pos hlt]
      refine ⟨⟨le_rfl, by norm_num⟩, fun _ => ⟨fun _ => rfl, ?_⟩⟩
      constructor
      · intro habs; exact absurd habs (by norm_num)
      · intro hy; omega
    · rw [if_neg hlt]
      by_cases hze : c.spend_year - inputs.starting_year ≤ 0
      · rw [if_pos hze]
        refine ⟨⟨by norm_num, le_rfl⟩, fun _ => ⟨fun hc => absurd hc hlt, ?_⟩⟩
        constructor
        · intro _; omega
        · intro _; rfl
      · rw [if_neg hze]
        push_neg at hlt hze
        have hd : (0 : ℚ)
            < ((c.spend_year : ℤ) : ℚ) - ((inputs.starting_year : ℤ) : ℚ) := by
          rw [sub_pos]
          have hlt' : inputs.starting_year < c.spend_year := by omega
          exact_mod_cast hlt'
        refine ⟨⟨?_, ?_⟩, fun _ => ⟨fun hc => absurd hc (by omega), ?_⟩⟩
        · apply div_nonneg _ hd.le
          rw [sub_nonneg]
          exact_mod_cast h1
        · rw [div_le_one hd]
          have : (y : ℤ) ≤ c.spend_year := hlt
          have hc : ((y : ℤ) : ℚ) ≤ ((c.spend_year : ℤ) : ℚ) := by exact_mod_cast this
          linarith
        · rw [div_eq_one_iff_eq (ne_of_gt hd)]
          constructor
          · intro heq
            have : ((y : ℤ) : ℚ) = ((c.spend_year : ℤ) : ℚ) := by linarith
            exact_mod_cast this
          · intro heq
            subst heq
            rfl

/-- Witness for C4 at the demo non-recurring component, evaluated at its
spend year (inside the window). -/
theorem claim_C4_fraction_range_witness :
    (demoInputs.starting_year ≤ 2026
      ∧ 2026 ≤ demoInputs.starting_year + demoInputs.forecast_years - 1)
    ∧ (0 ≤ nativeFraction demoInputs demoNonRecurring 2026
        ∧ nativeFraction demoInputs demoNonRecurring 2026 ≤ 1) :=
  ⟨⟨by decide, by decide⟩,
    (claim_C4_fraction_range demoInputs demoNonRecurring 2026 (by decide)
      (by decide)).1⟩

/-! ### Lemmas about schedule expansion -/

theorem loopYears_mem_aux (startY endY : ℤ) (k : ℕ) (hk : 0 < k) :
    ∀ (fuel : ℕ) (year y : ℤ), (endY + 1 - year).toNat ≤ fuel →
      (y ∈ loopYears startY endY k year ↔
        ((∃ i : ℕ, y = year + (i : ℤ) * (k : ℤ)) ∧ startY ≤ y ∧ y ≤ endY)) := by
  intro fuel
  induction fuel with
  | zero =>
    intro year y hb
    have hcond : ¬ (0 < k ∧ year ≤ endY) := by omega
    rw [loopYears, dif_neg hcond]
    simp only [List.not_mem_nil, false_iff]
    rintro ⟨⟨i, hi⟩, hs, he⟩
    have hik : (0 : ℤ) ≤ (i : ℤ) * (k : ℤ) := by positivity
    omega
  | succ fuel ih =>
    intro year y hb
    by_cases hcond : year ≤ endY
    · rw [loopYears, dif_pos ⟨hk, hcond⟩, List.mem_append,
        ih (year + k) y (by omega)]
      constructor
      · rintro (hmem | ⟨⟨i, hi⟩, hs, he⟩)
        · by_cases hsy : startY ≤ year
          · rw [if_pos hsy] at hmem
            simp only [List.mem_singleton] at hmem
            subst hmem
            exact ⟨⟨0, by push_cast; ring⟩, hsy, hcond⟩
          · rw [if_neg hsy] at hmem
            simp at hmem
        · refine ⟨⟨i + 1, ?_⟩, hs, he⟩
          push_cast at hi ⊢
          linarith
      · rintro ⟨⟨i, hi⟩, hs, he⟩
        cases i with
        | zero =>
          left
          have hyy : y = year := by push_cast at hi; linarith
          subst hyy
          rw [if_pos hs]
          simp
        | succ i =>
          right
          refine ⟨⟨i, ?_⟩, hs, he⟩
          push_cast at hi ⊢
          linarith
    · have hcond' : ¬ (0 < k ∧ year ≤ endY) := by omega
      rw [loopYears, dif_neg hcond']
      simp only [List.not_mem_nil, false_iff]
      rintro ⟨⟨i, hi⟩, hs, he⟩
      have hik : (0 : ℤ) ≤ (i : ℤ) * (k : ℤ) := by positivity
      omega

theorem perComponentYears_recurring_mem (inputs : Inputs) (c : Component)
    (hrec : c.recurring = true) (hk : 0 < c.interval_years.getD 0) (y : ℤ) :
    y ∈ perComponentYears inputs c ↔
      ((∃ i : ℕ, y = c.spend_year + (i : ℤ) * c.interval_years.getD 0)
        ∧ inputs.starting_year ≤ y
        ∧ y ≤ inputs.starting_year + inputs.forecast_years - 1) := by
  unfold perComponentYears
  rw [hrec]
  simp only [if_true]
  rw [if_neg (by omega : ¬ c.interval_years.getD 0 ≤ 0)]
  have hkt : (((c.interval_years.getD 0).toNat : ℕ) : ℤ)
      = c.interval_years.getD 0 := by omega
  rw [loopYears_mem_aux inputs.starting_year
      (inputs.starting_year + inputs.forecast_years - 1)
      (c.interval_years.getD 0).toNat (by omega) _ c.spend_year y le_rfl, hkt]

theorem perComponentYears_nonrecurring (inputs : Inputs) (c : Component)
    (hrec : c.recurring = false) :
    perComponentYears inputs c =
      if inputs.starting_year ≤ c.spend_year
          ∧ c.spend_year ≤ inputs.starting_year + inputs.forecast_years - 1
      then [c.spend_year] else [] := by
  unfold perComponentYears
  rw [hrec]
  simp

theorem mem_perComponentItems_id (pw : ℚ → ℚ → ℚ) (inputs : Inputs)
    (c : Component) (it : ScheduleItem) (h : it ∈ perComponentItems pw inputs c) :
    it.component_id = c.id := by
  unfold perComponentItems at h
  obtain ⟨y, _, rfl⟩ := List.mem_map.mp h
  rfl

theorem mem_perComponentItems_iff_year (pw : ℚ → ℚ → ℚ) (inputs : Inputs)
    (c : Component) (y : ℤ) :
    (∃ it ∈ perComponentItems pw inputs c, it.year = y)
      ↔ y ∈ perComponentYears inputs c := by
  constructor
  · rintro ⟨it, hmem, hy⟩
    unfold perComponentItems at hmem
    obtain ⟨z, hz, rfl⟩ := List.mem_map.mp hmem
    exact hy ▸ hz
  · intro hy
    exact ⟨_, List.mem_map_of_mem _ hy, rfl⟩

theorem mem_expandSchedule (pw : ℚ → ℚ → ℚ) (comps : List Component)
    (inputs : Inputs) (it : ScheduleItem) :
    it ∈ expandSchedule pw comps inputs ↔
      ∃ c ∈ comps, c.includeFlag = true ∧ it ∈ perComponentItems pw inputs c := by
  unfold expandSchedule
  rw [(List.perm_insertionSort itemKeyLE _).mem_iff, List.mem_flatMap]
  constructor
  · rintro ⟨c, hc, hit⟩
    by_cases hf : c.includeFlag
    · rw [if_pos hf] at hit
      exact ⟨c, hc, hf, hit⟩
    · rw [if_neg hf] at hit
      simp at hit
  · rintro ⟨c, hc, hf, hit⟩
    exact ⟨c, hc, by rw [if_pos hf]; exact hit⟩

theorem eq_of_mem_pairwise_id {l : List Component} {a b : Component}
    (hp : l.Pairwise fun x y => x.id ≠ y.id) (ha : a ∈ l) (hb : b ∈ l)
    (hid : a.id = b.id) : a = b := by
  induction l with
  | nil => simp at ha
  | cons x rest ih =>
    rw [List.pairwise_cons] at hp
    rcases List.mem_cons.mp ha with rfl | ha' <;>
      rcases List.mem_cons.mp hb with rfl | hb'
    · rfl
    · exact absurd hid (hp.1 b hb')
    · exact absurd hid.symm (hp.1 a ha')
    · exact ih hp.2 ha' hb'

theorem filter_flatMap_of_unique_id (pw : ℚ → ℚ → ℚ) (inputs : Inputs) :
    ∀ (comps : List Component) (c : Component), c ∈ comps →
      comps.Pairwise (fun x y => x.id ≠ y.id) →
      ((comps.flatMap fun x =>
          if x.includeFlag then perComponentItems pw inputs x else []).filter
            fun it => it.component_id = c.id)
        = (if c.includeFlag then perComponentItems pw inputs c else []) := by
  intro comps
  induction comps with
  | nil => intro c hc _; simp at hc
  | cons x rest ih =>
    intro c hc hp
    rw [List.pairwise_cons] at hp
    rw [List.flatMap_cons, List.filter_append]
    rcases List.mem_cons.mp hc with rfl | hc'
    · have hA : ((if c.includeFlag then perComponentItems pw inputs c else []).filter
          fun it => it.component_id = c.id)
            = (if c.includeFlag then perComponentItems pw inputs c else []) := by
        apply List.filter_eq_self.mpr
        intro it hit
        by_cases hf : c.includeFlag
        · rw [if_pos hf] at hit
          have hid := mem_perComponentItems_id pw inputs c it hit
          simp [hid]
        · rw [if_neg hf] at hit
          simp at hit
      have hB : ((rest.flatMap fun x =>
          if x.includeFlag then perComponentItems pw inputs x else []).filter
            fun it => it.component_id = c.id) = [] := by
        apply List.filter_eq_nil_iff.mpr
        intro it hit
        rw [List.mem_flatMap] at hit
        obtain ⟨x', hx', hit'⟩ := hit
        by_cases hf : x'.includeFlag
        · rw [if_pos hf] at hit'
          have hid := mem_perComponentItems_id pw inputs x' it hit'
          have hne : c.id ≠ x'.id := hp.1 x' hx'
          simp only [decide_eq_true_eq]
          rw [hid]
          exact fun hh => hne hh.symm
        · rw [if_neg hf] at hit'
          simp at hit'
      rw [hA, hB, List.append_nil]
    · have hxc : x.id ≠ c.id := hp.1 c hc'
      have hA : ((if x.includeFlag then perComponentItems pw inputs x else []).filter
          fun it => it.component_id = c.id) = [] := by
        apply List.filter_eq_nil_iff.mpr
        intro it hit
        by_cases hf : x.includeFlag
        · rw [if_pos hf] at hit
          have hid := mem_perComponentItems_id pw inputs x it hit
          simp only [decide_eq_true_eq]
          rw [hid]
          exact hxc
        · rw [if_neg hf] at hit
          simp at hit
      rw [hA, ih c hc' hp.2, List.nil_append]

/-- **C2.** For an included non-recurring component the schedule holds exactly
one event, at `spend_year`, iff `spend_year` lies in the forecast window; for
an included recurring component with interval `k > 0` the event years are
exactly `{s, s+k, s+2k, …}` intersected with the window (events before the
window are dropped, never shifted); and the full schedule is sorted by
`(year, component_id)` whatever the input ordering. -/
theorem claim_C2_schedule_expansion (pw : ℚ → ℚ → ℚ) (inputs : Inputs)
    (comps : List Component) (c : Component) (hc : c ∈ comps)
    (hids : comps.Pairwise fun a b => a.id ≠ b.id)
    (hinc : c.includeFlag = true) :
    (c.recurring = false →
      ((expandSchedule pw comps inputs).filter
          fun it => it.component_id = c.id).map (fun it => it.year)
        = (if inputs.starting_year ≤ c.spend_year
              ∧ c.spend_year ≤ inputs.starting_year + inputs.forecast_years - 1
            then [c.spend_year] else []))
    ∧ (c.recurring = true → 0 < c.interval_years.getD 0 →
        ∀ y : ℤ, ((∃ it ∈ expandSchedule pw comps inputs,
            it.component_id = c.id ∧ it.year = y)
          ↔ ((∃ i : ℕ, y = c.spend_year + (i : ℤ) * c.interval_years.getD 0)
              ∧ inputs.starting_year ≤ y
              ∧ y ≤ inputs.starting_year + inputs.forecast_years - 1)))
    ∧ List.Sorted itemKeyLE (expandSchedule pw comps inputs) := by
  refine ⟨?_, ?_, List.sorted_insertionSort itemKeyLE _⟩
  · intro hnonrec
    unfold expandSchedule
    have hperm := (List.perm_insertionSort itemKeyLE
      (comps.flatMap fun x =>
        if x.includeFlag then perComponentItems pw inputs x else [])).filter
      (fun it => decide (it.component_id = c.id))
    rw [filter_flatMap_of_unique_id pw inputs comps c hc hids, if_pos hinc]
      at hperm
    have hyears := perComponentYears_nonrecurring inputs c hnonrec
    by_cases hw : inputs.starting_year ≤ c.spend_year
        ∧ c.spend_year ≤ inputs.starting_year + inputs.forecast_years - 1
    · rw [if_pos hw] at hyears
      rw [if_pos hw]
      have hitems : perComponentItems pw inputs c
          = [{ year := c.spend_year
               component_id := c.id
               component_name := c.name
               base_cost := c.base_cost
               component_row := c.row_index
               nominal_expense :=
                 c.base_cost * pw (1 + inputs.inflation_rate)
                   ((c.spend_year : ℚ) - (inputs.starting_year : ℚ)
                     + inputs.spend_inflation_offset) }] := by
        unfold perComponentItems
        rw [hyears]
        rfl
      rw [hitems] at hperm
      rw [List.perm_singleton.mp hperm]
      rfl
    · rw [if_neg hw] at hyears
      rw [if_neg hw]
      have hitems : perComponentItems pw inputs c = [] := by
        unfold perComponentItems
        rw [hyears]
        rfl
      rw [hitems] at hperm
      rw [List.perm_nil.mp hperm]
      rfl
  · intro hrec hk y
    constructor
    · rintro ⟨it, hit, hid, hyear⟩
      obtain ⟨c', hc', hf', hit'⟩ :=
        (mem_expandSchedule pw comps inputs it).mp hit
      have hcid : c'.id = c.id := by
        rw [← mem_perComponentItems_id pw inputs c' it hit', hid]
      have hcc : c' = c := eq_of_mem_pairwise_id hids hc' hc hcid
      subst hcc
      have hy : y ∈ perComponentYears inputs c' :=
        (mem_perComponentItems_iff_year pw inputs c' y).mp ⟨it, hit', hyear⟩
      exact (perComponentYears_recurring_mem inputs c' hrec hk y).mp hy
    · intro hright
      have hy := (perComponentYears_recurring_mem inputs c hrec hk y).mpr hright
      obtain ⟨it, hit, hyear⟩ :=
        (mem_perComponentItems_iff_year pw inputs c y).mpr hy
      exact ⟨it, (mem_expandSchedule pw comps inputs it).mpr ⟨c, hc, hinc, hit⟩,
        mem_perComponentItems_id pw inputs c it hit, hyear⟩

/-- Witness for C2 on the single-component demo scenario. -/
theorem claim_C2_schedule_expansion_witness :
    (demoRecurring ∈ [demoRecurring]
      ∧ ([demoRecurring] : List Component).Pairwise (fun a b => a.id ≠ b.id)
      ∧ demoRecurring.includeFlag = true)
    ∧ List.Sorted itemKeyLE (expandSchedule demoPw [demoRecurring] demoInputs) :=
  ⟨⟨List.mem_singleton.mpr rfl, by simp, by decide⟩,
    (claim_C2_schedule_expansion demoPw demoInputs [demoRecurring] demoRecurring
      (List.mem_singleton.mpr rfl) (by simp) (by decide)).2.2⟩

/-- **C7.** A recurring component whose interval is missing or ≤ 0 yields no
schedule events and funding fraction 0 at every year; both code paths are
total (no division by zero is reachable: the fraction is clamped to 0 before
any divide). -/
theorem claim_C7_defensive_zero (pw : ℚ → ℚ → ℚ) (inputs : Inputs)
    (c : Component) (hrec : c.recurring = true)
    (hk : c.interval_years.getD 0 ≤ 0) :
    perComponentItems pw inputs c = []
    ∧ expandSchedule pw [c] inputs = []
    ∧ ∀ y : ℤ, nativeFraction inputs c y = 0 := by
  have hy : perComponentYears inputs c = [] := by
    unfold perComponentYears
    rw [hrec]
    simp only [if_true]
    rw [if_pos hk]
  have hitems : perComponentItems pw inputs c = [] := by
    unfold perComponentItems
    rw [hy]
    rfl
  refine ⟨hitems, ?_, ?_⟩
  · unfold expandSchedule
    have hbase : (([c] : List Component).flatMap fun x =>
        if x.includeFlag then perComponentItems pw inputs x else []) = [] := by
      cases hf : c.includeFlag <;> simp [hitems, hf]
    rw [hbase]
    rfl
  · intro y
    unfold nativeFraction
    rw [hrec]
    simp only [if_true]
    rw [if_pos hk]

/-- Witness for C7 at the zero-interval demo component. -/
theorem claim_C7_defensive_zero_witness :
    (demoZeroInterval.recurring = true
      ∧ demoZeroInterval.interval_years.getD 0 ≤ 0)
    ∧ expandSchedule demoPw [demoZeroInterval] demoInputs = [] :=
  ⟨⟨by decide, by decide⟩,
    (claim_C7_defensive_zero demoPw demoInputs demoZeroInterval (by decide)
      (by decide)).2.1⟩

/-! ### Inflation formula, audit denominators and validation -/

/-- **C5.** The timing enum maps to offsets 0 / ½ / 1 and anything else is
rejected with an error; every schedule event's nominal expense is
`base_cost × (1 + inflation_rate) ^ (event_year − starting_year +
timing_offset)` (the float power is the uninterpreted `pw`); and the funding
model's inflated cost follows the very same exponent formula — it equals the
nominal expense the schedule expander assigns to the same component at the
same year. -/
theorem claim_C5_inflation_formula (pw : ℚ → ℚ → ℚ) (inputs : Inputs)
    (comps : List Component) :
    (parseSpendInflationTiming "start_of_year" = .ok 0
      ∧ parseSpendInflationTiming "mid_year" = .ok (1/2)
      ∧ parseSpendInflationTiming "end_of_year" = .ok 1)
    ∧ (∀ s : String,
        pyLower (pyStrip s)
            ∉ (["start_of_year", "mid_year", "end_of_year"] : List String) →
        parseSpendInflationTiming s =
          .error "spend_inflation_timing must be one of: start_of_year, mid_year, end_of_year")
    ∧ (∀ it ∈ expandSchedule pw comps inputs,
        it.nominal_expense = it.base_cost * pw (1 + inputs.inflation_rate)
          ((it.year : ℚ) - (inputs.starting_year : ℚ)
            + inputs.spend_inflation_offset))
    ∧ (∀ (c : Component) (it : ScheduleItem), it ∈ perComponentItems pw inputs c →
        it.nominal_expense = inflatedCost pw inputs c it.year) := by
  refine ⟨⟨rfl, rfl, rfl⟩, ?_, ?_, ?_⟩
  · intro s hs
    simp only [List.mem_cons, List.not_mem_nil, or_false, not_or] at hs
    obtain ⟨h1, h2, h3⟩ := hs
    simp only [parseSpendInflationTiming]
    rw [if_neg h1, if_neg h2, if_neg h3]
  · intro it hit
    obtain ⟨c, _, _, hit'⟩ := (mem_expandSchedule pw comps inputs it).mp hit
    unfold perComponentItems at hit'
    obtain ⟨y, _, rfl⟩ := List.mem_map.mp hit'
    rfl
  · intro c it hit
    unfold perComponentItems at hit
    obtain ⟨y, _, rfl⟩ := List.mem_map.mp hit
    rfl

/-- Witness for C5: an unknown timing value errors and the demo schedule's
head event carries the inflation formula. -/
theorem claim_C5_inflation_formula_witness :
    parseSpendInflationTiming "quarterly"
      = .error "spend_inflation_timing must be one of: start_of_year, mid_year, end_of_year"
    ∧ (expandSchedule demoPw [demoNonRecurring] demoInputs ≠ [])
    ∧ ∀ h : expandSchedule demoPw [demoNonRecurring] demoInputs ≠ [],
        ((expandSchedule demoPw [demoNonRecurring] demoInputs).head h).nominal_expense
          = ((expandSchedule demoPw [demoNonRecurring] demoInputs).head h).base_cost
            * demoPw (1 + demoInputs.inflation_rate)
              ((((expandSchedule demoPw [demoNonRecurring] demoInputs).head h).year : ℚ)
                - (demoInputs.starting_year : ℚ) + demoInputs.spend_inflation_offset) := by
  refine ⟨(claim_C5_inflation_formula demoPw demoInputs [demoNonRecurring]).2.1
      "quarterly" (by decide), by decide, fun h => ?_⟩
  exact (claim_C5_inflation_formula demoPw demoInputs [demoNonRecurring]).2.2.1
    _ (List.head_mem h)

theorem auditLoop_mem (pw : ℚ → ℚ → ℚ) (inputs : Inputs)
    (comps : List Component) (sched : ℤ → Option ℚ) :
    ∀ (rows : List ForecastRow) (cc ci : ℚ) (r : ExpectedRow),
      r ∈ auditLoop pw inputs comps sched rows cc ci →
        r.percent_funded = formulaPercentFunded
            (fullyFundedBalance pw comps inputs r.year) r.begin_balance
        ∧ r.coverage_5yr = formulaCoverage5yr
            (coverageWindowSum inputs sched r.year) r.begin_balance := by
  intro rows
  induction rows with
  | nil => intro cc ci r hr; simp [auditLoop] at hr
  | cons row rest ih =>
    intro cc ci r hr
    rw [auditLoop] at hr
    rcases List.mem_cons.mp hr with rfl | h
    · exact ⟨rfl, rfl⟩
    · exact ih _ _ r h

/-- **C6.** In the audit-expected table, `percent_funded` is `None` exactly
when the fully-funded balance is 0 and `coverage_5yr` is `None` exactly when
the 5-year expense-window sum is 0; otherwise they are
`begin_balance / denominator`.  No division error can occur: the division is
reached only under the non-zero guard (both the native `None` path and the
emitted `IF(denom=0,"",…)` formula share this shape). -/
theorem claim_C6_zero_denominators (pw : ℚ → ℚ → ℚ) (inputs : Inputs)
    (comps : List Component) (items : List ScheduleItem)
    (contribs : ℤ → Option ℚ) :
    ∀ r ∈ computeAuditExpected pw inputs comps items contribs,
      (r.percent_funded = none ↔ fullyFundedBalance pw comps inputs r.year = 0)
      ∧ (fullyFundedBalance pw comps inputs r.year ≠ 0 →
          r.percent_funded
            = some (r.begin_balance / fullyFundedBalance pw comps inputs r.year))
      ∧ (r.coverage_5yr = none
          ↔ coverageWindowSum inputs (expensesByYear items) r.year = 0)
      ∧ (coverageWindowSum inputs (expensesByYear items) r.year ≠ 0 →
          r.coverage_5yr = some (r.begin_balance
            / coverageWindowSum inputs (expensesByYear items) r.year)) := by
  intro r hr
  simp only [computeAuditExpected] at hr
  obtain ⟨hp, hc⟩ := auditLoop_mem pw inputs comps (expensesByYear items) _ _ _ r hr
  refine ⟨?_, ?_, ?_, ?_⟩
  · rw [hp, formulaPercentFunded]
    split_ifs with h0 <;> simp [h0]
  · intro hne
    rw [hp, formulaPercentFunded, if_neg hne]
  · rw [hc, formulaCoverage5yr]
    split_ifs with h0 <;> simp [h0]
  · intro hne
    rw [hc, formulaCoverage5yr, if_neg hne]

/-- Witness for C6 at the head row of the demo audit table. -/
theorem claim_C6_zero_denominators_witness :
    (computeAuditExpected demoPw demoInputs [demoNonRecurring] [demoItem]
        demoContribs ≠ [])
    ∧ ∀ h : computeAuditExpected demoPw demoInputs [demoNonRecurring] [demoItem]
        demoContribs ≠ [],
        (((computeAuditExpected demoPw demoInputs [demoNonRecurring] [demoItem]
            demoContribs).head h).percent_funded = none
          ↔ fullyFundedBalance demoPw [demoNonRecurring] demoInputs
              ((computeAuditExpected demoPw demoInputs [demoNonRecurring]
                [demoItem] demoContribs).head h).year = 0) := by
  refine ⟨by decide, fun h => ?_⟩
  exact (claim_C6_zero_denominators demoPw demoInputs [demoNonRecurring]
    [demoItem] demoContribs _ (List.head_mem h)).1

/-- **C9 (evaluation).** `_validate_components_csv` never inspects
`base_cost`: its per-row result is invariant under replacing `base_cost` by
any string, and the concrete row with `base_cost = "0"` (non-positive, which
the spec and the repository's own tests `test_base_cost_bounds` demand be
rejected with `base_cost must be > 0`) passes with no errors and no
warnings. -/
theorem claim_C9_base_cost_not_validated :
    (∀ (startY endY : ℤ) (n : ℕ) (row : ComponentCsvRow) (v : String),
        validateComponentRow startY endY n { row with base_cost := v }
          = validateComponentRow startY endY n row)
    ∧ validateComponentRow 2025 2025 2
        { id := "item", name := "Item", category := "General", base_cost := "0",
          spend_year := "2025", recurring := "N", interval_years := "",
          includeField := "Y" } = ([], []) :=
  ⟨fun _ _ _ _ _ => rfl, by decide⟩

end HOAReserve
